import Mathlib

/-!
Verification development for the `data_distiller` repository
(`distillernode.py`, `distillery.py`).

The embedding below translates the Python sources into Lean:

* Python values flowing through the pipeline are modelled by `PyVal`
  (`Option PyVal` stands for a possibly-`None` Python value; `none` is the
  absent / end-of-data sentinel).
* A data-processing object ("process") is modelled by its `distill` behaviour,
  a function `Nat → Option PyVal → Option PyVal × Option PyVal` taking the
  number of previous `distill` calls made to that object (Python process
  objects are stateful; the call index is the state abstraction used here)
  and the input, and returning `(output, samples)`.
* `DistillerNode.distill_node` becomes `DNode.distill_node`; the imperative
  loops are the structural recursions `entry_loop` (the inner
  `for i in range(0, opt_num)` loop) and `process_loop` (the outer loop over
  `node_process_list`).  A ghost event trace (`Ev`) records every
  `process.distill` call and every `store_sample` / batch-signal call so that
  counting properties can be stated; the trace does not influence control
  flow.
-/

/-- Python values that can flow through the pipeline.  `builtinInput` is the
Python builtin function `input` (which `PrinterProcess.distill` returns by
mistake for its `return input, None`); it is an ordinary first-class value. -/
inductive PyVal where
  | str : String → PyVal
  | int : Int → PyVal
  | builtinInput : PyVal
  deriving DecidableEq, Repr

/-- Python truthiness of a (non-`None`) value, used by
`if node_input and self.next_node` and similar tests. -/
def PyVal.truthy : PyVal → Bool
  | .str s => s ≠ ""
  | .int n => n ≠ 0
  | .builtinInput => true

/-- Truthiness of a possibly-`None` Python value (`None` is falsy). -/
def truthyO : Option PyVal → Bool
  | none => false
  | some v => v.truthy

/-- Truthiness of Python's `None`/`False`/`True` (the `limited` field can be
any of the three: `_read_node_opt` leaves it `None` when neither exec flag is
present). -/
def truthyB : Option Bool → Bool
  | some b => b
  | none => false

/-- Ghost trace events: a `process.distill` call (recording the entry's
sample flag, the input and the returned output), a
`sampling_process.store_sample` call, and the batch signals sent by
`Distillery.distill`. -/
inductive Ev where
  | call (sample_flag : Bool) (inp out : Option PyVal)
  | store (samp : Option PyVal)
  | sigContinue
  | sigStop
  deriving DecidableEq, Repr

/-- One element of `DistillerNode.node_process_list`: the tuple
`(process, opt_num, limited, sample_flag)` built by `add_process`.
`process` is the process object's `distill` behaviour, `cc` the number of
`distill` calls already made to this process object (its state). -/
structure ProcEntry where
  process : Nat → Option PyVal → Option PyVal × Option PyVal
  cc : Nat
  opt_num : Nat
  limited : Option Bool
  sample_flag : Bool

/-- A `DistillerNode`: `node_process_list`, the attached sampling process
(modelled by its presence, as `distill_node` only tests
`if self.sampling_process`), the invocation counter `exec_count`, and
`next_node` (`last` = `next_node is None`, `cons` = a next node exists). -/
inductive DNode where
  | last (node_process_list : List ProcEntry) (sampling_process : Bool)
      (exec_count : Nat)
  | cons (node_process_list : List ProcEntry) (sampling_process : Bool)
      (exec_count : Nat) (next_node : DNode)

/-- The node's `node_process_list` attribute. -/
def DNode.node_process_list : DNode → List ProcEntry
  | .last l _ _ => l
  | .cons l _ _ _ => l

/-- The node's `exec_count` attribute. -/
def DNode.exec_count : DNode → Nat
  | .last _ _ e => e
  | .cons _ _ e _ => e

/-- The node's `sampling_process` attribute (presence of a sampler). -/
def DNode.sampling_process : DNode → Bool
  | .last _ s _ => s
  | .cons _ s _ _ => s

/-- The inner repetition loop of `DistillerNode.distill_node`:

    for i in range(0, opt_num):
        node_input, samples = process.distill(node_input)
        if node_input is None:
            break
        if self.sampling_process and sample_flag:
            self.sampling_process.store_sample(samples)

Arguments: sampler presence, the entry's `sample_flag` and process, the
remaining iteration count, the process's call counter, and `node_input`.
Returns the updated call counter, the final `node_input`, and the trace. -/
def entry_loop (sampler sample_flag : Bool)
    (process : Nat → Option PyVal → Option PyVal × Option PyVal) :
    Nat → Nat → Option PyVal → Nat × Option PyVal × List Ev
  | 0, cc, node_input => (cc, node_input, [])
  | n + 1, cc, node_input =>
    let r := process cc node_input
    if r.1 = none then
      (cc + 1, none, [Ev.call sample_flag node_input none])
    else if sampler ∧ sample_flag then
      let rest := entry_loop sampler sample_flag process n (cc + 1) r.1
      (rest.1, rest.2.1,
        Ev.call sample_flag node_input r.1 :: Ev.store r.2 :: rest.2.2)
    else
      let rest := entry_loop sampler sample_flag process n (cc + 1) r.1
      (rest.1, rest.2.1, Ev.call sample_flag node_input r.1 :: rest.2.2)

/-- The outer loop of `DistillerNode.distill_node` over
`node_process_list`:

    for process, opt_num, limited, sample_flag in self.node_process_list:
        exec_count_reached = self.exec_count >= opt_num
        if (node_input is None) or (limited and exec_count_reached):
            break
        <inner loop>

`ec` is `self.exec_count` (not modified during the loop).  Returns the
updated entry list (process call counters advance), the final `node_input`,
and the trace.  On `break` the remaining entries are returned untouched. -/
def process_loop (sampler : Bool) (ec : Nat) :
    List ProcEntry → Option PyVal → List ProcEntry × Option PyVal × List Ev
  | [], node_input => ([], node_input, [])
  | e :: rest, node_input =>
    let exec_count_reached := e.opt_num ≤ ec
    if node_input = none ∨ (truthyB e.limited = true ∧ exec_count_reached) then
      (e :: rest, node_input, [])
    else
      let r := entry_loop sampler e.sample_flag e.process e.opt_num e.cc
        node_input
      let r2 := process_loop sampler ec rest r.2.1
      ({ e with cc := r.1 } :: r2.1, r2.2.1, r.2.2 ++ r2.2.2)

/-- `DistillerNode.distill_node`.  Mirrors the Python control flow:

    node_output = None
    if self.node_process_list:
        <entry loop>
        self.exec_count += 1
        if node_input and self.next_node:
            node_output = self.next_node.distill_node(node_input)
        else:
            node_output = node_input
    return node_output

Note that with an empty `node_process_list` the result is `None` (the
initial `node_output`), `exec_count` is not incremented and the next node is
not visited.  Returns the updated node, `node_output`, and the trace. -/
def DNode.distill_node : DNode → Option PyVal → DNode × Option PyVal × List Ev
  | .last plist sampler ec, node_input =>
    if plist.isEmpty then (.last plist sampler ec, none, [])
    else
      let r := process_loop sampler ec plist node_input
      (.last r.1 sampler (ec + 1), r.2.1, r.2.2)
  | .cons plist sampler ec nx, node_input =>
    if plist.isEmpty then (.cons plist sampler ec nx, none, [])
    else
      let r := process_loop sampler ec plist node_input
      if truthyO r.2.1 then
        let rn := nx.distill_node r.2.1
        (.cons r.1 sampler (ec + 1) rn.1, rn.2.1, r.2.2 ++ rn.2.2)
      else
        (.cons r.1 sampler (ec + 1) nx, r.2.1, r.2.2)

/-!
Embedding of the configuration compiler (`PrimeNode` in `distillery.py`) and
the pipeline driver (`Distillery`).  The token attributes keep their default
values (`#`, `>`, `(`, `)`, `,`, `s`, plus `r` and `o` for the exec flags);
all tokens are single characters, so the Python substring operations
(`count`, `in`, `split`, `startswith`, `replace`) are modelled by
character-level list operations.
-/

/-- Python exceptions raised by the compiler and driver. -/
inductive PyErr where
  | indexError
  | invalidNodeCfg (cfg : String)
  | procNotFound (cfg : String)
  | attributeError
  | unboundLocal
  deriving DecidableEq, Repr

/-- A registered data-processing object: its `distill` behaviour (indexed by
the object's call count, see `ProcEntry.process`) and its `config_process`
method.  `config_process opts = none` models an object without that method
(calling it raises `AttributeError`); otherwise it returns the configured
copy produced by `cp.copy(proc)` followed by `config_process(opts)`. -/
inductive Proc where
  | mk (step : Nat → Option PyVal → Option PyVal × Option PyVal)
      (config_process : List String → Option Proc)

/-- The object's `distill` behaviour. -/
def Proc.step : Proc → Nat → Option PyVal → Option PyVal × Option PyVal
  | .mk s _ => s

/-- The object's `config_process` method (`none` = method missing). -/
def Proc.config_process : Proc → List String → Option Proc
  | .mk _ c => c

/-- `Distillery.process_registry` viewed through `dict.get`: a map from
process names to process objects. -/
def Registry : Type := String → Option Proc

/-- Number of occurrences of the character `t` in a string's characters
(Python `str.count` for a single-character token). -/
def countChar : List Char → Char → Nat
  | [], _ => 0
  | c :: cs, t => (if c = t then 1 else 0) + countChar cs t

/-- Python `tok in s` for a single-character token. -/
def hasChar : List Char → Char → Bool
  | [], _ => false
  | c :: cs, t => c = t || hasChar cs t

/-- Index of the first uppercase character (the scan loop in
`PrimeNode._split_proc_cfg`); `none` means the scan runs past the end of the
string and raises `IndexError`. -/
def firstUpperIdx : List Char → Option Nat
  | [] => none
  | c :: cs =>
    if c.isUpper then some 0 else (firstUpperIdx cs).map (· + 1)

/-- Python `str.rstrip()` (drops trailing whitespace, e.g. the `'\n'`). -/
def pyRstrip (s : String) : String :=
  String.mk ((s.data.reverse.dropWhile Char.isWhitespace).reverse)

/-- Python `s.split(sep)` for a single-character separator (always returns at
least one piece; `"".split(sep) == [""]`). -/
def splitChar (sep : Char) : List Char → List (List Char)
  | [] => [[]]
  | c :: cs =>
    let r := splitChar sep cs
    if c = sep then [] :: r
    else
      match r with
      | h :: t => (c :: h) :: t
      | [] => [[c]]

/-- Python `s.split(sep)` on strings. -/
def pySplit (sep : Char) (s : String) : List String :=
  (splitChar sep s.data).map String.mk

/-- Python `line.startswith(tok)` for a single-character token. -/
def pyStartsWith (tok : Char) (s : String) : Bool :=
  match s.data with
  | [] => false
  | c :: _ => c = tok

/-- `PrimeNode._node_opt_sanity_check`: `node_cfg_ok` is `True` unless one of
the four conditions sets it to `False`:

    if repeat_count > 1: node_cfg_ok = False
    if once_count > 1: node_cfg_ok = False
    if sample_count > 1: node_cfg_ok = False
    if (repeat_count != 1) and (once_count != 1): node_cfg_ok = False
-/
def node_opt_sanity_check (node_opt : String) : Bool :=
  let repeat_count := countChar node_opt.data 'r'
  let once_count := countChar node_opt.data 'o'
  let sample_count := countChar node_opt.data 's'
  repeat_count ≤ 1 && once_count ≤ 1 && sample_count ≤ 1 &&
    (repeat_count == 1 || once_count == 1)

/-- `PrimeNode._split_proc_cfg`: scan for the first uppercase character; the
prefix is `node_opt`, the (rstripped) rest is the process part.  `none`
models the `IndexError` raised when no uppercase character exists (the scan
indexes past the end of the string). -/
def split_proc_cfg (proc_cfg : String) : Option (String × String) :=
  match firstUpperIdx proc_cfg.data with
  | none => none
  | some i =>
    some (String.mk (proc_cfg.data.take i),
      pyRstrip (String.mk (proc_cfg.data.drop i)))

/-- Numeric value of a list of decimal digits (Python `int` on the digit
prefix). -/
def natOfDigits (ds : List Char) : Nat :=
  ds.foldl (fun a c => 10 * a + (c.toNat - 48)) 0

/-- `PrimeNode._read_node_opt`: scan the leading decimal digits
(`opt_num`, default 1), then read the exec flags from the remainder:
`limited = None`, set to `False` if `'r'` occurs, else `True` if `'o'`
occurs; `sample_flag` iff `'s'` occurs.  `none` models the `IndexError`
raised when the digit scan runs past the end of `node_opt` (in particular
when `node_opt` is empty). -/
def read_node_opt (node_opt : String) : Option (Nat × Option Bool × Bool) :=
  let ds := node_opt.data.takeWhile Char.isDigit
  if ds.length = node_opt.data.length then none
  else
    let opt_num := if 0 < ds.length then natOfDigits ds else 1
    let exec_opt := node_opt.data.drop ds.length
    let limited : Option Bool :=
      if hasChar exec_opt 'r' then some false
      else if hasChar exec_opt 'o' then some true
      else none
    some (opt_num, limited, hasChar exec_opt 's')

/-- The option-list parsing in `PrimeNode._setup_process` when the process
part contains `'('`: Python's `process.split("(", 1)` (the name is the part
before the first `'('`), then every `')'` is removed from the remainder and
the result split on `','`. -/
def parse_proc_opts (process : String) : String × List String :=
  let i := (process.data.takeWhile (· ≠ '(')).length
  let proc_name := String.mk (process.data.take i)
  let temp := (process.data.drop (i + 1)).filter (· ≠ ')')
  (proc_name, (splitChar ',' temp).map String.mk)

/-- `PrimeNode._setup_process`: split the specification, run the sanity
check (raising `ValueError("Invalid node configuration: " + proc_cfg)` on
failure), read the numeric/flag prefix, parse the optional `(...)` option
list, resolve the name in the registry (raising
`ValueError("Process (…) not found in registry")` when absent), configure a
copy when options are present, and append the entry to the node's list. -/
def setup_process (process_registry : Registry) (node : List ProcEntry)
    (proc_cfg : String) : Except PyErr (List ProcEntry) :=
  match split_proc_cfg proc_cfg with
  | none => .error .indexError
  | some (node_opt, process) =>
    if !node_opt_sanity_check node_opt then
      .error (.invalidNodeCfg proc_cfg)
    else
      match read_node_opt node_opt with
      | none => .error .indexError
      | some (opt_num, limited, sample_flag) =>
        let np : String × Option (List String) :=
          if hasChar process.data '(' then
            let r := parse_proc_opts process
            (r.1, some r.2)
          else (process, none)
        match process_registry np.1 with
        | none => .error (.procNotFound proc_cfg)
        | some proc =>
          match np.2 with
          | some process_opt =>
            match proc.config_process process_opt with
            | none => .error .attributeError
            | some proc1 =>
              .ok (node ++ [⟨proc1.step, 0, opt_num, limited, sample_flag⟩])
          | none =>
            .ok (node ++ [⟨proc.step, 0, opt_num, limited, sample_flag⟩])

/-- One iteration body of the `while not eof` loop in `PrimeNode.distill`
applied to a single line: split the line on the separator `'>'` and feed
each specification to `_setup_process` on a fresh node, producing the
node's entry list (the `processes` list from `split` is never empty, so the
`if processes:` test always succeeds). -/
def compile_line (process_registry : Registry) (line : String) :
    Except PyErr (List ProcEntry) :=
  (pySplit '>' line).foldlM (setup_process process_registry) []

/-- The `while not eof` read loop of `PrimeNode.distill`, with the remaining
lines of the configuration file as input (`readline` returns the head;
`[]` or an empty string mean `eof`).  The loop is fuel-indexed because the
source loop need not terminate: on a line starting with the comment token it
executes `continue` WITHOUT reading the next line, so the same line is
examined again forever.  `none` means the fuel ran out, i.e. the source loop
has not terminated within that many iterations.  `nodes` accumulates the
entry list of each compiled node in file order (`self.nodes.append(node)`);
the `prev_node.add_node(node)` linking is reconstructed by `link_nodes`. -/
def prime_loop (process_registry : Registry) :
    Nat → List String → List (List ProcEntry) →
    Option (Except PyErr (List (List ProcEntry)))
  | 0, _, _ => none
  | _ + 1, [], nodes => some (.ok nodes)
  | fuel + 1, line :: rest, nodes =>
    if line = "" then some (.ok nodes)
    else if pyStartsWith '#' line then
      prime_loop process_registry fuel (line :: rest) nodes
    else
      match compile_line process_registry line with
      | .error e => some (.error e)
      | .ok entries =>
        prime_loop process_registry fuel rest (nodes ++ [entries])

/-- `PrimeNode.distill` on a configuration file given as its list of lines.
`lines.length + 1` iterations suffice for every terminating run of the
source loop (each completed iteration consumes one line unless it hits the
comment `continue`, which repeats forever), so `none` still characterises
exactly the diverging runs. -/
def prime_node_distill (process_registry : Registry) (lines : List String) :
    Option (Except PyErr (List (List ProcEntry))) :=
  prime_loop process_registry (lines.length + 1) lines []

/-- The chain shape produced by the `prev_node.add_node(node)` calls in
`PrimeNode.distill`: each node is linked to the node compiled from the
following line, every node gets the shared sampling process and a fresh
`exec_count = 0`. -/
def link_nodes (sampler : Bool) : List (List ProcEntry) → Option DNode
  | [] => none
  | l :: rest =>
    match link_nodes sampler rest with
    | none => some (.last l sampler 0)
    | some nx => some (.cons l sampler 0 nx)

/-- The entry lists of a chain in link order (follows `next_node`). -/
def DNode.chain_to_list : DNode → List (List ProcEntry)
  | .last l _ _ => [l]
  | .cons l _ _ nx => l :: nx.chain_to_list

/-- `PrinterProcess.distill`:

    def distill(self, process_input):
        print(process_input)
        return input, None

The `print` call is an un-modelled console side effect.  The returned first
component is `input` — the Python BUILTIN function `input`, not the
parameter `process_input` — so the output is the fixed value
`PyVal.builtinInput`, whatever the argument was, and the sample is `None`. -/
def PrinterProcess.distill (process_input : Option PyVal) :
    Option PyVal × Option PyVal :=
  (some PyVal.builtinInput, none)

/-- The `PrinterProcess` object as a registry entry (its class defines no
`config_process` method, so configuring it raises `AttributeError`). -/
def printer_proc : Proc :=
  .mk (fun _ process_input => PrinterProcess.distill process_input)
    (fun _ => none)

/-- The registry contents right after `Distillery.__init__` /
`_prime_config`: only the default printer, registered under its name
`"dPRINT"`. -/
def init_registry : Registry :=
  fun n => if n = "dPRINT" then some printer_proc else none

/-- The `Distillery` object state: `next` (`hasMoreInput`), the compiled
chain (`nodes` in the source is a Python list whose elements are linked via
`next_node` and whose head drives execution; `none` models the empty list),
the presence of a registered sampling process, and the process registry. -/
structure Distillery where
  next : Bool
  nodes : Option DNode
  sampling_process : Bool
  process_registry : Registry

/-- `Distillery.__init__` (with `_prime_config` registering the printer). -/
def Distillery.init : Distillery :=
  { next := false, nodes := none, sampling_process := false,
    process_registry := init_registry }

/-- `Distillery.reset_distillery`: signals `start_sampling_process` to the
sampler if one is registered (an external call, not recorded here) and sets
`next = True`.  Node `exec_count`s and the topology are untouched. -/
def Distillery.reset_distillery (d : Distillery) : Distillery :=
  { d with next := true }

/-- `Distillery.distill`:

    if self.nodes and self.next:
        results = self.nodes[0].distill_node(input_obj)
        if results is None:
            self.next = False
        else:
            self.next = True
        if self.sampling_process:
            if self.next: self.sampling_process.continue_sampling_process()
            else: self.sampling_process.stop_sampling_process()
    return results

When the guard fails, `return results` reads the local variable `results`
that was never assigned, so the call raises `UnboundLocalError` instead of
returning anything; `.error .unboundLocal` models that.  Otherwise the
result is the new object state, the returned value and the trace (with the
batch signal appended). -/
def Distillery.distill (d : Distillery) (input_obj : Option PyVal) :
    Except PyErr (Distillery × Option PyVal × List Ev) :=
  match d.nodes, d.next with
  | some head, true =>
    let r := head.distill_node input_obj
    let next1 := if r.2.1 = none then false else true
    let sig : List Ev :=
      if d.sampling_process then
        if next1 then [.sigContinue] else [.sigStop]
      else []
    .ok ({ d with nodes := some r.1, next := next1 }, r.2.1, r.2.2 ++ sig)
  | _, _ => .error .unboundLocal

/-- `Distillery.config_distillery` on a configuration file given as its list
of lines: run `PrimeNode.distill`; only if it returns normally is the result
assigned to `self.nodes` and `reset_distillery` called.  An exception
propagates (`some (d, some e)`) and leaves the object unchanged — the
assignment to `self.nodes` never executes.  `none` models the diverging
compile (comment-line loop). -/
def Distillery.config_distillery (d : Distillery) (lines : List String) :
    Option (Distillery × Option PyErr) :=
  match prime_node_distill d.process_registry lines with
  | none => none
  | some (.error e) => some (d, some e)
  | some (.ok ns) =>
    some ((Distillery.reset_distillery
      { d with nodes := link_nodes d.sampling_process ns }), none)

/-!
Concrete fixtures used by witnesses and counterexamples.
-/

/-- A process whose `distill` returns its input unchanged with no sample. -/
def id_proc_fn : Nat → Option PyVal → Option PyVal × Option PyVal :=
  fun _ x => (x, none)

/-- A registry object for `id_proc_fn` (no `config_process` method). -/
def procA : Proc := .mk id_proc_fn (fun _ => none)

/-- A registry holding a single process named `UnitA`. -/
def regUnitA : Registry :=
  fun n => if n = "UnitA" then some procA else none

/-- A process that succeeds on its first call (output `5`, sample `"s1"`)
and returns `None` afterwards. -/
def once_proc_fn : Nat → Option PyVal → Option PyVal × Option PyVal :=
  fun cc _ => if cc = 0 then (some (.int 5), some (.str ("s1"))) else (none, none)

/-- A `Distillery` with an installed single-node chain, used to observe that
a failed recompilation leaves the chain alone. -/
def dWit : Distillery :=
  { next := true,
    nodes := some (.last [⟨id_proc_fn, 0, 1, some true, false⟩] false 5),
    sampling_process := false,
    process_registry := fun _ => none }

/-- C6 counterexample: a Node with an empty entry list does NOT pass a
present input through — `distill_node` returns its initial
`node_output = None`, not the input. -/
theorem c6_empty_node_cex :
    ((DNode.last [] false 0).distill_node (some (PyVal.str ("a")))).2.1 ≠
      some (PyVal.str ("a")) := by
  simp [DNode.distill_node]

/-- C6 (amended): executing a Node whose entry list is empty returns absent
(`None`) for every input — present or absent — leaves the node unchanged
(in particular `exec_count` is not incremented), performs no process call,
and does not visit the next node. -/
theorem c6_empty_node_returns_none (n : DNode) (inp : Option PyVal)
    (h : n.node_process_list = []) : n.distill_node inp = (n, none, []) := by
  cases n with
  | last l s e =>
    simp only [DNode.node_process_list] at h
    subst h
    simp [DNode.distill_node]
  | cons l s e nx =>
    simp only [DNode.node_process_list] at h
    subst h
    simp [DNode.distill_node]

/-- C6 witness: the amended theorem applied to a concrete empty node. -/
theorem c6_empty_node_witness :
    (DNode.last [] true 3).distill_node (some (PyVal.int 0)) =
      (DNode.last [] true 3, none, []) :=
  c6_empty_node_returns_none (DNode.last [] true 3) (some (PyVal.int 0)) rfl

/-- C1: when there is no compiled chain or `next` is `False`,
`Distillery.distill` does not return `None` as a no-op — it raises
`UnboundLocalError`, because `return results` reads a variable that is only
assigned inside the guarded block. -/
theorem c1_distill_guard_raises (d : Distillery) (x : Option PyVal)
    (h : d.nodes = none ∨ d.next = false) :
    d.distill x = .error .unboundLocal := by
  rcases h with h | h
  · cases hx : d.next <;> simp [Distillery.distill, h, hx]
  · cases hn : d.nodes <;> simp [Distillery.distill, h, hn]

/-- C1 witness: a freshly constructed `Distillery` (no chain, `next=False`)
raises `UnboundLocalError` on `distill`. -/
theorem c1_distill_guard_witness :
    Distillery.init.distill (some (PyVal.int 7)) = .error .unboundLocal :=
  c1_distill_guard_raises Distillery.init (some (PyVal.int 7)) (Or.inl rfl)

/-- C7: a configuration whose next line is blank is not treated as a no-op:
`_split_proc_cfg` scans the line `"\n"` for an uppercase character, runs
past its end and raises `IndexError`, for every registry and whatever lines
follow. -/
theorem c7_blank_line_raises (reg : Registry) (rest : List String) :
    prime_node_distill reg ("\n" :: rest) = some (.error .indexError) := rfl

/-- C5: a line starting with the comment token makes the `PrimeNode.distill`
read loop execute `continue` without reading the next line, so the same
line is examined forever: no iteration bound makes the loop terminate. -/
theorem c5_comment_line_diverges (reg : Registry) (fuel : Nat)
    (line : String) (rest : List String) (nodes : List (List ProcEntry))
    (h : pyStartsWith '#' line = true) :
    prime_loop reg fuel (line :: rest) nodes = none := by
  induction fuel with
  | zero => rfl
  | succ m ih =>
    have hne : ¬(line = "") := by
      intro he
      subst he
      simp [pyStartsWith] at h
    simp only [prime_loop, if_neg hne, h, if_true]
    exact ih

/-- C5 witness: the loop on a comment-headed file returns no result at a
concrete fuel. -/
theorem c5_comment_line_witness :
    prime_loop (fun _ => none) 5 ["# comment\n"] [] = none ∧
      pyStartsWith '#' "# comment\n" = true :=
  ⟨c5_comment_line_diverges (fun _ => none) 5 ("# comment\n") [] []
    (by decide), by decide⟩

/-- C10 counterexample: the default printer's output is not different from
every input — feeding it the very constant it returns (the Python builtin
`input` function, which is exactly what a second chained `dPRINT` node
receives) yields an output equal to the input. -/
theorem c10_printer_cex :
    (PrinterProcess.distill (some PyVal.builtinInput)).1 =
      some PyVal.builtinInput := rfl

/-- C10 (amended): `dPRINT` is registered at construction, its transform
returns the pair `(input-builtin-function, None)` — one fixed constant
output, independent of the argument, with an absent sample — and the output
differs from every input other than that constant itself; in particular the
printer never passes its input through. -/
theorem c10_printer_fixed_output (x : Option PyVal) :
    PrinterProcess.distill x = (some PyVal.builtinInput, none) ∧
      init_registry ("dPRINT") = some printer_proc ∧
      (x ≠ some PyVal.builtinInput → (PrinterProcess.distill x).1 ≠ x) := by
  refine ⟨rfl, rfl, ?_⟩
  intro hne heq
  exact hne heq.symm

/-- C10 witness: the printer's behaviour at a concrete string input. -/
theorem c10_printer_witness :
    PrinterProcess.distill (some (PyVal.str ("x"))) =
        (some PyVal.builtinInput, none) ∧
      (PrinterProcess.distill (some (PyVal.str ("x")))).1 ≠
        some (PyVal.str ("x")) :=
  ⟨(c10_printer_fixed_output (some (PyVal.str ("x")))).1,
    (c10_printer_fixed_output (some (PyVal.str ("x")))).2.2 (by decide)⟩

/-- C8: a compilation that raises an error leaves the `Distillery` exactly
as it was: the exception propagates out of `config_distillery` before the
assignment to `self.nodes` and before `reset_distillery`, so the previously
installed chain and the `next` flag survive. -/
theorem c8_failed_config_preserves_chain (d : Distillery)
    (lines : List String) (d1 : Distillery) (e : PyErr)
    (h : d.config_distillery lines = some (d1, some e)) :
    d1 = d ∧ d1.nodes = d.nodes ∧ d1.next = d.next := by
  unfold Distillery.config_distillery at h
  cases hp : prime_node_distill d.process_registry lines with
  | none => rw [hp] at h; exact absurd h (by simp)
  | some r =>
    cases r with
    | error e2 =>
      rw [hp] at h
      simp only [Option.some.injEq, Prod.mk.injEq] at h
      exact ⟨h.1.symm, by rw [h.1], by rw [h.1]⟩
    | ok ns =>
      rw [hp] at h
      exact absurd h (by simp)

/-- C8 witness: recompiling `dWit` (which owns a one-node chain) with an
invalid configuration raises and leaves the chain and `next` intact. -/
theorem c8_failed_config_witness :
    dWit.config_distillery ["UnitA\n"] =
        some (dWit, some (PyErr.invalidNodeCfg ("UnitA\n"))) ∧
      (dWit = dWit ∧ dWit.nodes = dWit.nodes ∧ dWit.next = dWit.next) :=
  ⟨rfl, c8_failed_config_preserves_chain dWit ["UnitA\n"] dWit
    (PyErr.invalidNodeCfg ("UnitA\n")) rfl⟩

/-!
Helper lemmas about the character-level scanning functions.
-/

theorem hasChar_iff_mem (l : List Char) (c : Char) :
    hasChar l c = true ↔ c ∈ l := by
  induction l with
  | nil => simp [hasChar]
  | cons a t ih =>
    simp only [hasChar, Bool.or_eq_true, decide_eq_true_eq, ih,
      List.mem_cons]
    constructor
    · rintro (h | h)
      · exact Or.inl h.symm
      · exact Or.inr h
    · rintro (h | h)
      · exact Or.inl h.symm
      · exact Or.inr h

theorem mem_of_countChar_pos (l : List Char) (c : Char)
    (h : 0 < countChar l c) : c ∈ l := by
  induction l with
  | nil => simp [countChar] at h
  | cons a t ih =>
    by_cases ha : a = c
    · subst ha; exact List.mem_cons_self a t
    · simp [countChar, ha] at h
      exact List.mem_cons_of_mem a (ih h)

theorem all_of_takeWhile_length (p : Char → Bool) (l : List Char)
    (h : (l.takeWhile p).length = l.length) :
    ∀ a ∈ l, p a = true := by
  induction l with
  | nil => simp
  | cons a t ih =>
    intro b hb
    by_cases hpa : p a
    · simp [List.takeWhile, hpa] at h
      rcases List.mem_cons.mp hb with rfl | hbt
      · exact hpa
      · exact ih h b hbt
    · simp [List.takeWhile, hpa] at h

theorem drop_takeWhile_length (p : Char → Bool) (l : List Char) :
    l.drop (l.takeWhile p).length = l.dropWhile p := by
  induction l with
  | nil => rfl
  | cons a t ih =>
    by_cases hpa : p a
    · simp [List.takeWhile, List.dropWhile, hpa, ih]
    · simp [List.takeWhile, List.dropWhile, hpa]

theorem mem_dropWhile_of_not (p : Char → Bool) (l : List Char) (c : Char)
    (hc : c ∈ l) (hpc : p c = false) : c ∈ l.dropWhile p := by
  induction l with
  | nil => simp at hc
  | cons a t ih =>
    by_cases hpa : p a
    · rcases List.mem_cons.mp hc with rfl | hct
      · rw [hpa] at hpc; exact absurd hpc (by simp)
      · simp [List.dropWhile, hpa]
        exact ih hct
    · simp [List.dropWhile, hpa]
      exact List.mem_cons.mp hc

/-- C4 counterexample: a specification whose prefix contains BOTH the
repeat flag `r` and the once flag `o` passes `_node_opt_sanity_check`
(the check only fails when each of `r`, `o` occurs other than once — the
`(repeat_count != 1) and (once_count != 1)` condition is false when both
occur exactly once) and compiles successfully into an unlimited entry. -/
theorem c4_both_flags_cex :
    node_opt_sanity_check ("ro") = true ∧
      setup_process regUnitA [] "roUnitA" =
        .ok [⟨procA.step, 0, 1, some false, false⟩] :=
  ⟨by decide, rfl⟩

/-- C4 (amended): a specification whose numeric/flag prefix contains
neither `r` nor `o` exactly once — so in particular a prefix with NEITHER
flag — and likewise any prefix in which `r`, `o` or `s` occurs more than
once, fails compilation with the invalid-entry-syntax error, for every
registry and node state: the failure precedes any registry lookup and no
entry is appended to the node.  A prefix containing both `r` and `o`
exactly once (and `s` at most once), however, passes the syntax check and
produces an unlimited (`limited=False`) entry when the unit name
resolves. -/
theorem c4_exec_flag_validation :
    (∀ (reg : Registry) (node : List ProcEntry)
      (proc_cfg node_opt pname : String),
      split_proc_cfg proc_cfg = some (node_opt, pname) →
      ((countChar node_opt.data 'r' ≠ 1 ∧ countChar node_opt.data 'o' ≠ 1) ∨
        1 < countChar node_opt.data 'r' ∨
        1 < countChar node_opt.data 'o' ∨
        1 < countChar node_opt.data 's') →
      setup_process reg node proc_cfg = .error (.invalidNodeCfg proc_cfg)) ∧
    (∀ (reg : Registry) (node : List ProcEntry)
      (proc_cfg node_opt pname : String) (proc : Proc),
      split_proc_cfg proc_cfg = some (node_opt, pname) →
      countChar node_opt.data 'r' = 1 →
      countChar node_opt.data 'o' = 1 →
      countChar node_opt.data 's' ≤ 1 →
      hasChar pname.data '(' = false →
      reg pname = some proc →
      ∃ q, read_node_opt node_opt = some q ∧ q.2.1 = some false ∧
        setup_process reg node proc_cfg =
          .ok (node ++ [⟨proc.step, 0, q.1, q.2.1, q.2.2⟩])) := by
  constructor
  · intro reg node proc_cfg node_opt pname hsplit h
    have hsan : node_opt_sanity_check node_opt = false := by
      simp only [node_opt_sanity_check, Bool.and_eq_false_iff,
        Bool.or_eq_false_iff, decide_eq_false_iff_not, Nat.not_le,
        beq_eq_false_iff_ne, ne_eq]
      rcases h with ⟨h1, h2⟩ | h1 | h1 | h1 <;> omega
    simp [setup_process, hsplit, hsan]
  · intro reg node proc_cfg node_opt pname proc hsplit hr ho hs hpar hreg
    have hsan : node_opt_sanity_check node_opt = true := by
      simp [node_opt_sanity_check, hr, ho, hs]
    have hrmem : 'r' ∈ node_opt.data :=
      mem_of_countChar_pos node_opt.data 'r' (by rw [hr]; exact Nat.one_pos)
    have hrd : Char.isDigit 'r' = false := by decide
    have hlen : (node_opt.data.takeWhile Char.isDigit).length ≠
        node_opt.data.length := by
      intro hl
      have := all_of_takeWhile_length Char.isDigit node_opt.data hl 'r' hrmem
      rw [hrd] at this
      exact absurd this (by simp)
    have hrdrop : 'r' ∈ node_opt.data.drop
        (node_opt.data.takeWhile Char.isDigit).length := by
      rw [drop_takeWhile_length]
      exact mem_dropWhile_of_not Char.isDigit node_opt.data 'r' hrmem hrd
    have hrhas : hasChar (node_opt.data.drop
        (node_opt.data.takeWhile Char.isDigit).length) 'r' = true :=
      (hasChar_iff_mem _ 'r').mpr hrdrop
    refine ⟨⟨(if 0 < (node_opt.data.takeWhile Char.isDigit).length then
        natOfDigits (node_opt.data.takeWhile Char.isDigit) else 1),
      some false,
      hasChar (node_opt.data.drop
        (node_opt.data.takeWhile Char.isDigit).length) 's'⟩, ?_, rfl, ?_⟩
    · simp only [read_node_opt, if_neg hlen, hrhas, if_true]
    · simp only [setup_process, hsplit, hsan, Bool.not_true, if_neg
        (by simp : ¬(false = true)), read_node_opt, if_neg hlen, hrhas,
        if_true, hpar, hreg]

/-- C4 witness: the amended theorem at concrete specifications — `"UnitA"`
(no exec flag) and `"rrUnitA"` (`r` twice) fail before any lookup,
`"2roUnitA"` (both flags) passes the syntax check and yields an unlimited
entry. -/
theorem c4_exec_flag_witness :
    setup_process regUnitA [] "UnitA" =
        .error (.invalidNodeCfg ("UnitA")) ∧
      setup_process regUnitA [] "rrUnitA" =
        .error (.invalidNodeCfg ("rrUnitA")) ∧
      ∃ q, read_node_opt ("2ro") = some q ∧ q.2.1 = some false ∧
        setup_process regUnitA [] "2roUnitA" =
          .ok ([] ++ [⟨procA.step, 0, q.1, q.2.1, q.2.2⟩]) :=
  ⟨c4_exec_flag_validation.1 regUnitA [] "UnitA" "" "UnitA"
      (by decide) (by decide),
    c4_exec_flag_validation.1 regUnitA [] "rrUnitA" "rr" "UnitA"
      (by decide) (by decide),
    c4_exec_flag_validation.2 regUnitA [] "2roUnitA" "2ro" "UnitA" procA
      (by decide) (by decide) (by decide) (by decide) (by decide) rfl⟩

/-!
Claim C2: a Node with a single limited entry.
-/

/-- A freshly built node holding one limited entry (`repeatCount = k`),
no sampler. -/
def single_limited_node
    (f : Nat → Option PyVal → Option PyVal × Option PyVal) (k : Nat) :
    DNode :=
  .last [⟨f, 0, k, some true, false⟩] false 0

/-- State of a node after `n` successive `distill_node` invocations with
the (present) inputs `xs 0, …, xs (n-1)`. -/
def invoke_seq (st : DNode) (xs : Nat → PyVal) : Nat → DNode
  | 0 => st
  | n + 1 => ((invoke_seq st xs n).distill_node (some (xs n))).1

theorem entry_loop_trace_ne (sampler flag : Bool)
    (pr : Nat → Option PyVal → Option PyVal × Option PyVal)
    (m cc : Nat) (inp : Option PyVal) :
    (entry_loop sampler flag pr (m + 1) cc inp).2.2 ≠ [] := by
  simp only [entry_loop]
  split
  · simp
  · split <;> simp

theorem limited_node_exhausted
    (f : Nat → Option PyVal → Option PyVal × Option PyVal)
    (k cc ec : Nat) (x : PyVal) (h : k ≤ ec) :
    (DNode.last [⟨f, cc, k, some true, false⟩] false ec).distill_node
        (some x) =
      (.last [⟨f, cc, k, some true, false⟩] false (ec + 1), some x, []) := by
  simp [DNode.distill_node, process_loop, truthyB, h]

theorem limited_node_active
    (f : Nat → Option PyVal → Option PyVal × Option PyVal)
    (k cc ec : Nat) (x : PyVal) (h : ¬k ≤ ec) :
    (DNode.last [⟨f, cc, k, some true, false⟩] false ec).distill_node
        (some x) =
      (.last [⟨f, (entry_loop false false f k cc (some x)).1, k, some true,
          false⟩] false (ec + 1),
        (entry_loop false false f k cc (some x)).2.1,
        (entry_loop false false f k cc (some x)).2.2) := by
  simp [DNode.distill_node, process_loop, truthyB, h]

theorem invoke_seq_shape
    (f : Nat → Option PyVal → Option PyVal × Option PyVal)
    (k : Nat) (xs : Nat → PyVal) :
    ∀ n, ∃ cc, invoke_seq (single_limited_node f k) xs n =
      .last [⟨f, cc, k, some true, false⟩] false n := by
  intro n
  induction n with
  | zero => exact ⟨0, rfl⟩
  | succ m ih =>
    obtain ⟨cc, hc⟩ := ih
    by_cases hk : k ≤ m
    · exact ⟨cc, by
        simp [invoke_seq, hc, limited_node_exhausted f k cc m (xs m) hk]⟩
    · exact ⟨(entry_loop false false f k cc (some (xs m))).1, by
        simp [invoke_seq, hc, limited_node_active f k cc m (xs m) hk]⟩

/-- C2: for a Node with a single limited entry of `repeatCount = k` fed
present inputs, `exec_count` equals the number of invocations performed so
far (incremented exactly once per invocation); invocation `n+1` executes
the entry (at least one `process.distill` call appears in its trace) iff
`n < k`, i.e. exactly on invocations `1..k`; and from invocation `k+1` on,
the node is a no-op: no process call, the input is returned unchanged and
only `exec_count` advances. -/
theorem c2_limited_entry_cutoff
    (f : Nat → Option PyVal → Option PyVal × Option PyVal)
    (k : Nat) (xs : Nat → PyVal) (n : Nat) :
    ∃ cc, invoke_seq (single_limited_node f k) xs n =
        DNode.last [⟨f, cc, k, some true, false⟩] false n ∧
      (((DNode.last [⟨f, cc, k, some true, false⟩] false n).distill_node
          (some (xs n))).2.2 ≠ [] ↔ n < k) ∧
      (k ≤ n →
        (DNode.last [⟨f, cc, k, some true, false⟩] false n).distill_node
            (some (xs n)) =
          (DNode.last [⟨f, cc, k, some true, false⟩] false (n + 1),
            some (xs n), [])) := by
  obtain ⟨cc, hc⟩ := invoke_seq_shape f k xs n
  refine ⟨cc, hc, ⟨?_, ?_⟩, ?_⟩
  · intro hne
    by_contra hlt
    have hk : k ≤ n := Nat.le_of_not_lt hlt
    rw [limited_node_exhausted f k cc n (xs n) hk] at hne
    exact hne rfl
  · intro hlt
    have hk : ¬k ≤ n := Nat.not_le.mpr hlt
    rw [limited_node_active f k cc n (xs n) hk]
    have hk0 : k ≠ 0 := by omega
    obtain ⟨m, rfl⟩ := Nat.exists_eq_succ_of_ne_zero hk0
    exact entry_loop_trace_ne false false f m cc (some (xs n))
  · intro hk
    exact limited_node_exhausted f k cc n (xs n) hk

/-- Constant input stream used by the C2 witness. -/
def xs7 : Nat → PyVal := fun _ => .int 7

/-- C2 witness: `k = 2`, fourth invocation (`n = 3 ≥ k`) is a pass-through
no-op with an empty trace. -/
theorem c2_limited_entry_witness :
    ∃ cc, invoke_seq (single_limited_node id_proc_fn 2) xs7 3 =
        DNode.last [⟨id_proc_fn, cc, 2, some true, false⟩] false 3 ∧
      ((DNode.last [⟨id_proc_fn, cc, 2, some true, false⟩] false 3).distill_node
          (some (xs7 3))).2.2 = [] ∧
      (DNode.last [⟨id_proc_fn, cc, 2, some true, false⟩] false 3).distill_node
          (some (xs7 3)) =
        (DNode.last [⟨id_proc_fn, cc, 2, some true, false⟩] false 4,
          some (xs7 3), []) := by
  obtain ⟨cc, h1, _, h3⟩ := c2_limited_entry_cutoff id_proc_fn 2 xs7 3
  exact ⟨cc, h1, by rw [h3 (by decide)], h3 (by decide)⟩

/-!
Claim C3: single unlimited entry threading, and the sink call count.
-/

/-- A freshly built node holding one unlimited entry (`repeatCount = k`)
with sample flag `flag`, sampler presence `sampler`, and an arbitrary
`exec_count` (unlimited entries never consult it). -/
def single_unlimited_node
    (f : Nat → Option PyVal → Option PyVal × Option PyVal)
    (k : Nat) (flag sampler : Bool) (ec : Nat) : DNode :=
  .last [⟨f, 0, k, some false, flag⟩] sampler ec

/-- Reference trace, phrased after the spec: run the unit's transform `k`
times in sequence, each output fed as the next input; if a transform
returns an absent output the remaining repeats do not run; after each
successful (present-output) transform of a flagged entry with a sink
attached, one `storeSample` call is made with the returned sample. -/
def spec_threaded_calls
    (f : Nat → Option PyVal → Option PyVal × Option PyVal)
    (flag sampler : Bool) : Nat → Nat → Option PyVal → List Ev
  | 0, _, _ => []
  | m + 1, j, inp =>
    let r := f j inp
    Ev.call flag inp r.1 ::
      (if r.1 = none then []
       else
         (if sampler ∧ flag then [Ev.store r.2] else []) ++
           spec_threaded_calls f flag sampler m (j + 1) r.1)

theorem entry_loop_trace_eq_spec (sampler flag : Bool)
    (f : Nat → Option PyVal → Option PyVal × Option PyVal) :
    ∀ (m cc : Nat) (inp : Option PyVal),
      (entry_loop sampler flag f m cc inp).2.2 =
        spec_threaded_calls f flag sampler m cc inp := by
  intro m
  induction m with
  | zero => intro cc inp; rfl
  | succ n ih =>
    intro cc inp
    simp only [entry_loop, spec_threaded_calls]
    by_cases h1 : (f cc inp).1 = none
    · simp [h1]
    · by_cases h2 : sampler = true ∧ flag = true
      · obtain ⟨hs, hf⟩ := h2
        subst hs
        subst hf
        simp [h1, ih]
      · simp [h1, h2, ih]

/-- Whether an event is a `store_sample` call. -/
def isStoreEv : Ev → Bool
  | .store _ => true
  | _ => false

/-- Whether an event is a successful (present-output) transform call of a
flagged entry. -/
def isFlaggedSuccess : Ev → Bool
  | .call fl _ out => fl && out.isSome
  | _ => false

theorem entry_loop_store_count (flag : Bool)
    (f : Nat → Option PyVal → Option PyVal × Option PyVal) :
    ∀ (m cc : Nat) (inp : Option PyVal),
      ((entry_loop true flag f m cc inp).2.2).countP isStoreEv =
        ((entry_loop true flag f m cc inp).2.2).countP isFlaggedSuccess := by
  intro m
  induction m with
  | zero => intro cc inp; rfl
  | succ n ih =>
    intro cc inp
    simp only [entry_loop]
    by_cases h1 : (f cc inp).1 = none
    · simp [h1, List.countP_cons, isStoreEv, isFlaggedSuccess]
    · by_cases h2 : flag = true
      · subst h2
        simp [h1, List.countP_cons, isStoreEv, isFlaggedSuccess, ih,
          Option.isSome_iff_ne_none]
      · have hf : flag = false := by simpa using h2
        subst hf
        simp [h1, List.countP_cons, isStoreEv, isFlaggedSuccess, ih]

theorem process_loop_store_count (ec : Nat) :
    ∀ (entries : List ProcEntry) (inp : Option PyVal),
      ((process_loop true ec entries inp).2.2).countP isStoreEv =
        ((process_loop true ec entries inp).2.2).countP isFlaggedSuccess := by
  intro entries
  induction entries with
  | nil => intro inp; rfl
  | cons e rest ih =>
    intro inp
    simp only [process_loop]
    by_cases hb : inp = none ∨ (truthyB e.limited = true ∧ e.opt_num ≤ ec)
    · simp [hb]
    · simp [hb, List.countP_append, entry_loop_store_count, ih]

/-- Every node of the chain has the sampling process attached (as the
compiler arranges via `node.add_sampling_process`). -/
def DNode.all_sampler : DNode → Bool
  | .last _ s _ => s
  | .cons _ s _ nx => s && nx.all_sampler

theorem distill_node_store_count (nd : DNode) :
    ∀ inp : Option PyVal, nd.all_sampler = true →
      ((nd.distill_node inp).2.2).countP isStoreEv =
        ((nd.distill_node inp).2.2).countP isFlaggedSuccess := by
  induction nd with
  | last l s e =>
    intro inp hs
    simp only [DNode.all_sampler] at hs
    subst hs
    by_cases hl : l.isEmpty
    · simp [DNode.distill_node, hl]
    · simp [DNode.distill_node, hl, process_loop_store_count]
  | cons l s e nx ih =>
    intro inp hs
    simp only [DNode.all_sampler, Bool.and_eq_true] at hs
    obtain ⟨rfl, hnx⟩ := hs
    by_cases hl : l.isEmpty
    · simp [DNode.distill_node, hl]
    · by_cases ht :
        truthyO (process_loop true e l inp).2.1 = true
      · simp [DNode.distill_node, hl, ht, List.countP_append,
          process_loop_store_count, ih _ hnx]
      · simp [DNode.distill_node, hl, ht, process_loop_store_count]

/-- C3: (1) a Node with a single unlimited entry of `repeatCount = k`,
invoked once on a present input, produces exactly the spec's reference
trace: the transform runs `k` times in sequence with each output fed as
the next input, an absent output stops the remaining repeats, and each
successful flagged transform is followed by one `store_sample` call when a
sink is attached — all independently of `exec_count`; (2) across any run of
any chain whose nodes carry the sink, the number of `store_sample` calls
equals the number of successful flagged transforms. -/
theorem c3_unlimited_entry_threading :
    (∀ (f : Nat → Option PyVal → Option PyVal × Option PyVal)
      (k : Nat) (flag sampler : Bool) (ec : Nat) (x : PyVal),
      ((single_unlimited_node f k flag sampler ec).distill_node
          (some x)).2.2 =
        spec_threaded_calls f flag sampler k 0 (some x)) ∧
    (∀ (nd : DNode) (inp : Option PyVal), nd.all_sampler = true →
      ((nd.distill_node inp).2.2).countP isStoreEv =
        ((nd.distill_node inp).2.2).countP isFlaggedSuccess) := by
  constructor
  · intro f k flag sampler ec x
    simp [single_unlimited_node, DNode.distill_node, process_loop, truthyB,
      entry_loop_trace_eq_spec]
  · exact fun nd inp h => distill_node_store_count nd inp h

/-- C3 witness: the once-then-absent process, `k = 3`, flagged, sink
attached — the trace matches the reference trace and its store count
matches its flagged-success count. -/
theorem c3_unlimited_entry_witness :
    ((single_unlimited_node once_proc_fn 3 true true 0).distill_node
        (some (PyVal.int 1))).2.2 =
      spec_threaded_calls once_proc_fn true true 3 0 (some (PyVal.int 1)) ∧
    (((single_unlimited_node once_proc_fn 3 true true 0).distill_node
        (some (PyVal.int 1))).2.2).countP isStoreEv =
      (((single_unlimited_node once_proc_fn 3 true true 0).distill_node
        (some (PyVal.int 1))).2.2).countP isFlaggedSuccess :=
  ⟨c3_unlimited_entry_threading.1 once_proc_fn 3 true true 0 (PyVal.int 1),
    c3_unlimited_entry_threading.2
      (single_unlimited_node once_proc_fn 3 true true 0)
      (some (PyVal.int 1)) rfl⟩

/-!
Claim C9: N valid lines compile to N chained nodes in line order.
-/

/-- Whether `_setup_process` succeeded on a whole line. -/
def exceptOk : Except PyErr (List ProcEntry) → Bool
  | .ok _ => true
  | .error _ => false

theorem link_nodes_chain (sampler : Bool) :
    ∀ ns : List (List ProcEntry),
      (link_nodes sampler ns).map DNode.chain_to_list =
        if ns.isEmpty then none else some ns := by
  intro ns
  induction ns with
  | nil => rfl
  | cons l rest ih =>
    simp only [link_nodes]
    cases hl : link_nodes sampler rest with
    | none =>
      rw [hl] at ih
      have hrest : rest = [] := by
        cases rest with
        | nil => rfl
        | cons a t => simp at ih
      subst hrest
      simp [DNode.chain_to_list]
    | some nx =>
      rw [hl] at ih
      have hrest : ¬rest.isEmpty = true := by
        intro hre
        have : rest = [] := by
          cases rest with
          | nil => rfl
          | cons a t => simp at hre
        subst this
        simp [link_nodes] at hl
      rw [if_neg hrest] at ih
      simp only [Option.map, Option.some.injEq] at ih
      simp [DNode.chain_to_list, ih, List.isEmpty_cons]

theorem prime_loop_ok (reg : Registry) :
    ∀ (lines : List String) (acc : List (List ProcEntry)) (fuel : Nat),
      lines.length < fuel →
      (∀ l ∈ lines, l ≠ "" ∧ pyStartsWith '#' l = false ∧
        exceptOk (compile_line reg l) = true) →
      ∃ ns, prime_loop reg fuel lines acc = some (.ok (acc ++ ns)) ∧
        ns.length = lines.length ∧
        ∀ i (hi : i < lines.length) (hi2 : i < ns.length),
          compile_line reg (lines.get ⟨i, hi⟩) = .ok (ns.get ⟨i, hi2⟩) := by
  intro lines
  induction lines with
  | nil =>
    intro acc fuel hf _
    obtain ⟨m, rfl⟩ := Nat.exists_eq_succ_of_ne_zero (by omega : fuel ≠ 0)
    exact ⟨[], by simp [prime_loop], by simp, fun i hi => absurd hi (by simp)⟩
  | cons line rest ih =>
    intro acc fuel hf hall
    obtain ⟨m, rfl⟩ := Nat.exists_eq_succ_of_ne_zero (by omega : fuel ≠ 0)
    obtain ⟨hne, hcom, hok⟩ := hall line (List.mem_cons_self line rest)
    obtain ⟨es, hes⟩ : ∃ es, compile_line reg line = .ok es := by
      cases hcl : compile_line reg line with
      | ok es => exact ⟨es, rfl⟩
      | error e => rw [hcl] at hok; simp [exceptOk] at hok
    have hm : rest.length < m := by
      simp only [List.length_cons] at hf
      omega
    obtain ⟨ns1, hloop, hlen, hidx⟩ := ih (acc ++ [es]) m hm
      (fun l hl => hall l (List.mem_cons_of_mem _ hl))
    refine ⟨es :: ns1, ?_, by simp [hlen], ?_⟩
    · simp only [prime_loop, if_neg hne, hcom, Bool.false_eq_true,
        if_false, hes]
      simpa using hloop
    · intro i hi hi2
      cases i with
      | zero => simpa using hes
      | succ j =>
        have hj : j < rest.length := by simpa using hi
        have hj2 : j < ns1.length := by simpa using hi2
        simpa using hidx j hj hj2

/-- C9: for every registry and configuration whose lines are all valid
(non-empty, not comments, and compiling without error), `PrimeNode.distill`
returns exactly one compiled node per line, in file order (node `i` is
built from line `i`), and the `prev_node.add_node` links arrange those
nodes into a chain whose order equals the line order. -/
theorem c9_n_lines_n_nodes (reg : Registry) (lines : List String)
    (h : ∀ l ∈ lines, l ≠ "" ∧ pyStartsWith '#' l = false ∧
      exceptOk (compile_line reg l) = true) :
    ∃ ns, prime_node_distill reg lines = some (.ok ns) ∧
      ns.length = lines.length ∧
      (∀ i (hi : i < lines.length) (hi2 : i < ns.length),
        compile_line reg (lines.get ⟨i, hi⟩) = .ok (ns.get ⟨i, hi2⟩)) ∧
      ∀ sampler : Bool,
        (link_nodes sampler ns).map DNode.chain_to_list =
          if ns.isEmpty then none else some ns := by
  obtain ⟨ns, hloop, hlen, hidx⟩ :=
    prime_loop_ok reg lines [] (lines.length + 1) (by omega) h
  exact ⟨ns, by simpa [prime_node_distill] using hloop, hlen, hidx,
    fun sampler => link_nodes_chain sampler ns⟩

/-- C9 witness: a two-line configuration over `regUnitA` compiles to two
nodes chained in line order. -/
theorem c9_n_lines_witness :
    (∀ l ∈ ["rUnitA\n", "2oUnitA>rUnitA\n"], l ≠ "" ∧
      pyStartsWith '#' l = false ∧
      exceptOk (compile_line regUnitA l) = true) ∧
    ∃ ns, prime_node_distill regUnitA ["rUnitA\n", "2oUnitA>rUnitA\n"] =
        some (.ok ns) ∧
      ns.length = 2 ∧
      ∀ sampler : Bool,
        (link_nodes sampler ns).map DNode.chain_to_list =
          if ns.isEmpty then none else some ns := by
  refine ⟨by decide, ?_⟩
  obtain ⟨ns, h1, h2, _, h4⟩ :=
    c9_n_lines_n_nodes regUnitA ["rUnitA\n", "2oUnitA>rUnitA\n"] (by decide)
  exact ⟨ns, h1, h2, h4⟩
